import Mathlib

/-!
# Verification of the RoboDanny spoiler subsystem (`cogs/buttons.py`)

This file gives a shallow embedding of the spoiler storage, caching and
reveal subsystem of `cogs/buttons.py` and proves (or refutes) the spec's
claims about it.

Conventions of the embedding:
* Discord snowflake ids are `Nat`.
* Python `str(n)` for a non-negative integer is `toString (n : Nat)`;
  Python `int(s)` on a decimal string is `parseNat` below (digit strings
  parse, anything else is a parse failure, which in the source is a raised
  `ValueError`/`TypeError`).
* Python `name.lower().endswith(suffix)` is modelled on the character list
  of the string (`lowerData`, `strEndsWith`), which agrees with CPython on
  ASCII file names.
* Remote calls (`fetch_message`, `session.get`, `storage.send`,
  `message.delete`) are modelled by an explicit `World`/`PubWorld` that
  says how each call would answer; the embedded functions additionally
  count the remote calls they perform so that the cost claims can be
  stated.
* A Python exception that escapes a function is an `Except.error`/`.fault`
  value; exceptions that the source catches never surface in the model.
-/

/-- Model of Python `int(s)` on strings, restricted to the non-negative
decimal strings that the spoiler codec produces: a non-empty all-digit
string parses to its value, anything else fails (in the source the failed
`int(...)` raises and the caller decides whether that is caught). -/
def decStep (n : Nat) (c : Char) : Nat := n * 10 + (c.toNat - 48)

/-- Python `int(s)` (see `decStep`). -/
def parseNat (s : String) : Option Nat :=
  if !s.data.isEmpty && s.data.all Char.isDigit then
    some (s.data.foldl decStep 0)
  else
    none

/-- Python `name.lower()`, on the character list. -/
def lowerData (s : String) : List Char := s.data.map Char.toLower

/-- Python `name.lower().endswith(suffix)` for an ASCII suffix. -/
def strEndsWith (s suff : String) : Bool := suff.data.isSuffixOf (lowerData s)

lemma digitChar_toNat_sub (m : Nat) (hm : m < 10) : (Nat.digitChar m).toNat - 48 = m := by
  interval_cases m <;> decide

lemma digitChar_isDigit (m : Nat) (hm : m < 10) : (Nat.digitChar m).isDigit = true := by
  interval_cases m <;> decide

lemma toDigitsCore_append (b : Nat) : ∀ (fuel n : Nat) (ds : List Char),
    Nat.toDigitsCore b fuel n ds = Nat.toDigitsCore b fuel n [] ++ ds := by
  intro fuel
  induction fuel with
  | zero => intro n ds; rfl
  | succ f ih =>
    intro n ds
    simp only [Nat.toDigitsCore]
    by_cases h : n / b = 0
    · simp [h]
    · simp only [h, if_false]
      rw [ih (n / b) (Nat.digitChar (n % b) :: ds), ih (n / b) [Nat.digitChar (n % b)]]
      simp

lemma toDigitsCore_fuel : ∀ (n fuel fuel' : Nat), n < fuel → n < fuel' →
    Nat.toDigitsCore 10 fuel n [] = Nat.toDigitsCore 10 fuel' n [] := by
  intro n
  induction n using Nat.strong_induction_on with
  | _ n ih =>
    intro fuel fuel' hf hf'
    cases fuel with
    | zero => omega
    | succ f =>
      cases fuel' with
      | zero => omega
      | succ f' =>
        simp only [Nat.toDigitsCore]
        by_cases h : n / 10 = 0
        · simp [h]
        · simp only [h, if_false]
          rw [toDigitsCore_append 10 f, toDigitsCore_append 10 f']
          have hn : 0 < n := by
            rcases Nat.eq_zero_or_pos n with h0 | h0
            · exfalso; apply h; rw [h0]
            · exact h0
          have hd : n / 10 < n := Nat.div_lt_self hn (by norm_num)
          rw [ih (n / 10) hd f f' (by omega) (by omega)]

lemma toDigits_lt10 (n : Nat) (h : n < 10) : Nat.toDigits 10 n = [Nat.digitChar n] := by
  have h0 : n / 10 = 0 := Nat.div_eq_of_lt h
  simp [Nat.toDigits, Nat.toDigitsCore, h0, Nat.mod_eq_of_lt h]

lemma toDigits_ge10 (n : Nat) (h : 10 ≤ n) :
    Nat.toDigits 10 n = Nat.toDigits 10 (n / 10) ++ [Nat.digitChar (n % 10)] := by
  have h0 : n / 10 ≠ 0 := by omega
  have hd : n / 10 < n := Nat.div_lt_self (by omega) (by norm_num)
  show Nat.toDigitsCore 10 (n + 1) n [] = _
  simp only [Nat.toDigitsCore]
  simp only [h0, if_false]
  rw [toDigitsCore_append]
  rw [toDigitsCore_fuel (n / 10) n (n / 10 + 1) (by omega) (Nat.lt_succ_self _)]
  rfl

lemma foldl_decStep_toDigits : ∀ n : Nat, ∀ a : Nat,
    (Nat.toDigits 10 n).foldl decStep a = a * 10 ^ (Nat.toDigits 10 n).length + n := by
  intro n
  induction n using Nat.strong_induction_on with
  | _ n ih =>
    intro a
    by_cases h : n < 10
    · rw [toDigits_lt10 n h]
      simp only [List.foldl_cons, List.foldl_nil, List.length_cons, List.length_nil]
      rw [decStep, digitChar_toNat_sub n h, pow_one]
    · push_neg at h
      rw [toDigits_ge10 n h, List.foldl_append, List.length_append]
      have hd : n / 10 < n := Nat.div_lt_self (by omega) (by norm_num)
      rw [ih (n / 10) hd a]
      simp only [List.foldl_cons, List.foldl_nil, List.length_cons, List.length_nil]
      rw [decStep, digitChar_toNat_sub (n % 10) (Nat.mod_lt _ (by norm_num))]
      rw [pow_succ, ← mul_assoc]
      generalize a * 10 ^ (Nat.toDigits 10 (n / 10)).length = K
      omega

lemma toDigits_all_isDigit : ∀ n : Nat, ∀ c ∈ Nat.toDigits 10 n, c.isDigit = true := by
  intro n
  induction n using Nat.strong_induction_on with
  | _ n ih =>
    by_cases h : n < 10
    · rw [toDigits_lt10 n h]
      intro c hc
      rw [List.mem_singleton] at hc
      rw [hc]
      exact digitChar_isDigit n h
    · push_neg at h
      rw [toDigits_ge10 n h]
      intro c hc
      rcases List.mem_append.mp hc with hc | hc
      · exact ih (n / 10) (Nat.div_lt_self (by omega) (by norm_num)) c hc
      · rw [List.mem_singleton] at hc
        rw [hc]
        exact digitChar_isDigit _ (Nat.mod_lt _ (by norm_num))

lemma toDigits_ne_nil (n : Nat) : Nat.toDigits 10 n ≠ [] := by
  by_cases h : n < 10
  · rw [toDigits_lt10 n h]; simp
  · rw [toDigits_ge10 n (by omega)]; simp

/-- Python round trip `int(str(n)) == n` for non-negative `n`. -/
lemma parseNat_toString (n : Nat) : parseNat (toString n) = some n := by
  have hds : (toString n).data = Nat.toDigits 10 n := rfl
  have h1 : (Nat.toDigits 10 n).isEmpty = false := by
    cases hE : Nat.toDigits 10 n with
    | nil => exact absurd hE (toDigits_ne_nil n)
    | cons a l => rfl
  have h2 : (Nat.toDigits 10 n).all Char.isDigit = true := by
    rw [List.all_eq_true]
    intro c hc
    exact toDigits_all_isDigit n c hc
  rw [parseNat, hds, h1, h2]
  simp only [Bool.not_false, Bool.and_self, if_true]
  have h3 := foldl_decStep_toDigits n 0
  rw [h3, Nat.zero_mul, Nat.zero_add]

/-! ## Data model (`SpoilerCache`, embeds, messages) -/

/-- A Discord attachment as the subsystem sees it: filename, URL and byte
size (`discord.Attachment`). -/
structure Attachment where
  filename : String
  url : String
  size : Nat
deriving DecidableEq, Repr

/-- The slots of a structured embed that the codec reads or writes:
`title`, `description`, `author.name`, `footer.text`.  A slot that was
never set is `none` (discord.py reports it as `None`). -/
structure Embed where
  title : Option String := none
  description : Option String := none
  author_name : Option String := none
  footer_text : Option String := none
deriving DecidableEq, Repr

/-- A fetched Discord message, restricted to the parts the subsystem
uses: its embeds and its attachment list. -/
structure Message where
  embeds : List Embed
  attachments : List Attachment
deriving DecidableEq, Repr

/-- `SpoilerCache` (source lines 176-184): the reconstructed record.
`title` is `Option String` because the decode path assigns
`data.title`, which discord.py types as `Optional[str]`. -/
structure SpoilerCache where
  author_id : Nat
  channel_id : Nat
  title : Option String
  text : Option String
  attachments : List Attachment
deriving DecidableEq, Repr

/-! ## Record codec -/

/-- Python truthiness on an optional string: `if text:` keeps only a
present, non-empty string.  This is both how `redirect_post` decides to
set the body slot (source lines 452-453) and how `get_spoiler_cache`
turns the body slot back into a `text` field
(`None if not data.description else data.description`, source line 506). -/
def textOfDescription (text : Option String) : Option String :=
  match text with
  | some t => if t = "" then none else some t
  | none => none

/-- The archive embed built by `redirect_post` (source lines 451-456):
`data = discord.Embed(title=title); if text: data.description = text;
data.set_author(name=ctx.author.id); data.set_footer(text=ctx.channel.id)`.
Note that a `text` that is `''` is falsy in Python, so the body slot is
set only for a non-empty `text`. -/
def encodeArchiveEmbed (author_id channel_id : Nat) (title : String) (text : Option String) :
    Embed :=
  { title := some title
    description := textOfDescription text
    author_name := some (toString author_id)
    footer_text := some (toString channel_id) }

/-- A Python exception escaping the decode step of `get_spoiler_cache`
(source lines 500-506, which run OUTSIDE the `try`):
`message.embeds[0]` on a message without embeds raises `IndexError`;
`int(None)` raises `TypeError`; `int(<non-digits>)` raises `ValueError`. -/
inductive Fault where
  | indexError
  | typeError
  | valueError
deriving DecidableEq, Repr

/-- The decode step of `get_spoiler_cache` (source lines 500-507):
`data = message.embeds[0]`, then
`author_id = int(data.author.name)`, `channel_id = int(data.footer.text)`,
`title = data.title`, `text = None if not data.description else
data.description`, `attachments = message.attachments`.
Each failing step raises (`Except.error`), since this code is not guarded
by the `try` block. -/
def decodeStorage (msg : Message) : Except Fault SpoilerCache :=
  match msg.embeds with
  | [] => .error .indexError
  | data :: _ =>
    match data.author_name with
    | none => .error .typeError
    | some an =>
      match parseNat an with
      | none => .error .valueError
      | some aid =>
        match data.footer_text with
        | none => .error .typeError
        | some ft =>
          match parseNat ft with
          | none => .error .valueError
          | some cid =>
            .ok
              { author_id := aid
                channel_id := cid
                title := data.title
                text := textOfDescription data.description
                attachments := msg.attachments }

/-- Extracting the storage pointer from the front-door message (source
line 494): `int(original_message.embeds[0].footer.text)`.  This runs
INSIDE the `try`, so every failure (no embed, `None` footer, non-integer
footer) is caught and yields "not found"; hence an `Option`. -/
def frontPointer (msg : Message) : Option Nat :=
  match msg.embeds with
  | [] => none
  | e :: _ =>
    match e.footer_text with
    | none => none
    | some t => parseNat t

/-! ## Lookup cache

Modelled from the spec: the source stores records in `LRU(128)` from the
external `lru` package (source line 286), whose code is not part of this
repository.  Per spec section 4.2 it is a least-recently-used map: `get`
refreshes the accessed key's recency, `put` inserts at most-recent and
evicts the least-recently-accessed entry when the capacity is exceeded.
The model is a list of `(key, value)` pairs ordered most-recent-first. -/

/-- First value stored under `k`, scanning most-recent-first. -/
def lruFind {α : Type} : List (Nat × α) → Nat → Option α
  | [], _ => none
  | (k', v) :: rest, k => if k' = k then some v else lruFind rest k

/-- Drop every entry keyed `k`. -/
def lruRemove {α : Type} : List (Nat × α) → Nat → List (Nat × α)
  | [], _ => []
  | (k', v) :: rest, k => if k' = k then lruRemove rest k else (k', v) :: lruRemove rest k

/-- `cache[k]`: on a hit the entry is refreshed to most-recent; on a miss
(`KeyError` in the source) the cache is unchanged. -/
def lruGet {α : Type} (c : List (Nat × α)) (k : Nat) : Option α × List (Nat × α) :=
  match lruFind c k with
  | none => (none, c)
  | some v => (some v, (k, v) :: lruRemove c k)

/-- `cache[k] = v`: insert at most-recent, evicting beyond capacity. -/
def lruPut {α : Type} (cap : Nat) (c : List (Nat × α)) (k : Nat) (v : α) : List (Nat × α) :=
  ((k, v) :: lruRemove c k).take cap

/-! ## Reconstruction protocol (`get_spoiler_cache`) -/

/-- How the outside world answers the remote calls `get_spoiler_cache`
and the reveal handlers make.  `none` for a fetch means the call raised
(deleted message, missing permissions, dead storage, ...). -/
structure World where
  /-- `self.storage_channel` is not `None` (source lines 306-312). -/
  storageAvailable : Bool
  /-- `self.bot.get_channel(channel_id)` finds the channel. -/
  getChannel : Nat → Bool
  /-- `channel.fetch_message(message_id)` (remote). -/
  fetchFront : Nat → Nat → Option Message
  /-- `storage.fetch_message(storage_message_id)` (remote). -/
  fetchStorage : Nat → Option Message
  /-- the user looked up in `on_raw_reaction_add` is a bot. -/
  userIsBot : Nat → Bool

/-- Outcome of one `get_spoiler_cache` call: the returned value (or the
escaped exception), the cache afterwards, and instrumentation counting
remote message fetches, durable-store writes and cache insertions. -/
structure LookupResult where
  result : Except Fault (Option SpoilerCache)
  cache : List (Nat × SpoilerCache)
  fetches : Nat
  storeWrites : Nat
  cacheWrites : Nat
deriving Repr

/-- `Buttons.get_spoiler_cache` (source lines 474-510). -/
def get_spoiler_cache (w : World) (cache : List (Nat × SpoilerCache))
    (channel_id message_id : Nat) : LookupResult :=
  match lruGet cache message_id with
  | (some c, cache') => ⟨.ok (some c), cache', 0, 0, 0⟩
  | (none, _) =>
    if w.storageAvailable = false then ⟨.ok none, cache, 0, 0, 0⟩
    else if w.getChannel channel_id = false then ⟨.ok none, cache, 0, 0, 0⟩
    else
      match w.fetchFront channel_id message_id with
      | none => ⟨.ok none, cache, 1, 0, 0⟩
      | some original_message =>
        match frontPointer original_message with
        | none => ⟨.ok none, cache, 1, 0, 0⟩
        | some storage_message_id =>
          match w.fetchStorage storage_message_id with
          | none => ⟨.ok none, cache, 2, 0, 0⟩
          | some message =>
            match decodeStorage message with
            | .error f => ⟨.error f, cache, 2, 0, 0⟩
            | .ok c => ⟨.ok (some c), lruPut 128 cache message_id c, 2, 0, 1⟩

/-! ## Publish pipeline (`redirect_post`) -/

/-- `25 * 1024 * 1024` (source line 429, variable `max_mib`). -/
def max_mib : Nat := 25 * 1024 * 1024

/-- `supported_attachments` (source line 423). -/
def supported_attachments : List String :=
  [".png", ".jpg", ".jpeg", ".webm", ".gif", ".mp4", ".txt"]

/-- `attach.filename.lower().endswith(supported_attachments)`
(source line 424): `str.endswith` with a tuple is true when any listed
suffix matches. -/
def isSupportedFilename (name : String) : Bool :=
  supported_attachments.any (fun ext => strEndsWith name ext)

/-- What `ctx.session.get(attach.url)` would yield for one attachment:
either a raised transport exception (`exc`, uncaught in the source), or a
response with an HTTP status and a `Content-Length` header. -/
inductive FetchOutcome where
  | exc
  | resp (status : Nat) (contentLength : Nat)
deriving DecidableEq, Repr

/-- A candidate attachment of the triggering message, together with how
fetching its URL would go. -/
structure PubAttachment where
  filename : String
  url : String
  fetch : FetchOutcome
deriving DecidableEq, Repr

/-- How the world answers `redirect_post`'s remaining remote calls. -/
structure PubWorld where
  /-- `self.storage_channel` is not `None`. -/
  storageAvailable : Bool
  /-- `storage.send(...)` succeeds (`false` = raises `discord.HTTPException`). -/
  archiveOk : Bool
deriving DecidableEq, Repr

/-- The re-uploaded copy of an attachment on the archive message:
`discord.File(fp, filename=attach.filename)` keeps the filename; its size
is the fetched `Content-Length`. -/
def archivedCopy (a : PubAttachment) (len : Nat) : Attachment :=
  { filename := a.filename, url := a.url, size := len }

/-- Result of the attachment loop (source lines 427-446). -/
inductive LoopResult where
  | fault (fetches : Nat)
  | done (files : List Attachment) (total : Nat) (fetches : Nat)
deriving DecidableEq, Repr

/-- The attachment loop of `redirect_post` (source lines 427-446):
each candidate is fetched; a non-200 response is skipped (`continue`);
a size that would push the running total over `max_mib` is skipped
(`continue`); otherwise the bytes are kept and, when the total has
reached `max_mib`, the loop `break`s.  Both `continue`s jump past the
`break` check.  A raised fetch exception escapes the whole function
(`fault`).  `fetches` counts the `session.get` calls made. -/
def archiveLoop : List PubAttachment → List Attachment → Nat → Nat → LoopResult
  | [], files, total, fetches => .done files total fetches
  | a :: rest, files, total, fetches =>
    match a.fetch with
    | .exc => .fault (fetches + 1)
    | .resp status content_length =>
      if status ≠ 200 then
        archiveLoop rest files total (fetches + 1)
      else if total + content_length > max_mib then
        archiveLoop rest files total (fetches + 1)
      else if total + content_length ≥ max_mib then
        .done (files ++ [archivedCopy a content_length]) (total + content_length) (fetches + 1)
      else
        archiveLoop rest (files ++ [archivedCopy a content_length]) (total + content_length)
          (fetches + 1)

/-- The `RuntimeError`s and escaped exceptions `redirect_post` can end
in, as seen by its caller `spoiler` (which catches them all and shows
`str(e)` to the actor). -/
inductive PublishError where
  | storageMissing
  | unsupportedAttachment
  | fetchFault
  | archiveWriteFailed
deriving DecidableEq, Repr

/-- Outcome of one `redirect_post` call: the returned pair (or the
error), whether `ctx.message.delete()` ran, how many attachment-content
fetches happened, and whether the archive message was written. -/
structure PublishResult where
  result : Except PublishError (Message × SpoilerCache)
  originDeleted : Bool
  fetches : Nat
  archiveWritten : Bool
deriving Repr

/-- `Buttons.redirect_post` (source lines 418-472).  The order of steps
is the source's: storage check, extension check, attachment loop,
`ctx.message.delete()`, embed build, `storage.send`.  On success the
returned `SpoilerCache` is built from the archive message's attachment
list and the given title/text (source lines 463-471). -/
def redirect_post (w : PubWorld) (author_id channel_id : Nat) (title : String)
    (text : Option String) (atts : List PubAttachment) : PublishResult :=
  if w.storageAvailable = false then
    ⟨.error .storageMissing, false, 0, false⟩
  else if (atts.all (fun a => isSupportedFilename a.filename)) = false then
    ⟨.error .unsupportedAttachment, false, 0, false⟩
  else
    match archiveLoop atts [] 0 0 with
    | .fault n => ⟨.error .fetchFault, false, n, false⟩
    | .done files _ n =>
      -- `await ctx.message.delete()` happens here, before the archive write
      if w.archiveOk = false then
        ⟨.error .archiveWriteFailed, true, n, false⟩
      else
        let message : Message :=
          ⟨[encodeArchiveEmbed author_id channel_id title text], files⟩
        ⟨.ok (message,
          { author_id := author_id
            channel_id := channel_id
            title := some title
            text := text
            attachments := message.attachments }), true, n, true⟩

/-! ## Reveal rate limiter

Modelled from the spec: `SpoilerCooldown` (source lines 224-234) keys a
`commands.Cooldown(1, 10.0)` by the `(message_id, user_id)` pair, but the
`Cooldown` implementation lives in discord.py, not in this repository.
Per spec section 4.5 it is a token bucket of capacity 1 refilled with one
token every 10 seconds.  The model keeps, per pair, the time the single
token was last consumed; the token is back exactly 10 seconds later.
Time is in seconds. -/

/-- Per-(post, actor) bucket state: the time of the last consumed token. -/
def RateMap : Type := List ((Nat × Nat) × Nat)

/-- Look up the bucket of a key. -/
def rateFind : RateMap → (Nat × Nat) → Option Nat
  | [], _ => none
  | (k', w) :: rest, k => if k' = k then some w else rateFind rest k

/-- `allow`: consume the token if it is available.  Modelled from the
spec (section 4.5): a pair never seen has its full (single) token; a
consumed token is back once 10 seconds have passed. -/
def rateAllow (m : RateMap) (k : Nat × Nat) (now : Nat) : Bool × RateMap :=
  match rateFind m k with
  | none => (true, (k, now) :: m)
  | some w =>
    if w + 10 ≤ now then
      (true, (k, now) :: m.filter (fun p => p.1 != k))
    else
      (false, m)

/-- `SpoilerCooldown.is_rate_limited` (source lines 231-234): true when
the bucket denies the call. -/
def is_rate_limited (m : RateMap) (message_id user_id now : Nat) : Bool × RateMap :=
  let r := rateAllow m (message_id, user_id) now
  (!r.1, r.2)

/-! ## Reveal flows -/

/-- `SPOILER_EMOJI_ID` (source line 39). -/
def SPOILER_EMOJI_ID : Nat := 430469957042831371

/-- The in-process state the two reveal handlers touch. -/
structure CogState where
  cache : List (Nat × SpoilerCache)
  cooldown : RateMap

/-- Externally visible actions of the reveal handlers. -/
inductive Effect where
  /-- the handler consulted the rate limiter for `(message_id, user_id)`. -/
  | rateCheck (message_id user_id : Nat)
  /-- `user.send(embed=...)`: the record delivered by direct message. -/
  | dmEmbed (user_id : Nat) (c : SpoilerCache)
  /-- ephemeral response with the revealed record (button path). -/
  | ephemeralEmbed (c : SpoilerCache)
  /-- ephemeral `'Could not find this message in storage'` (button path). -/
  | ephemeralNotFound
deriving DecidableEq, Repr

/-- `SpoilerView.reveal_spoiler`, the button handler (source lines
267-278): reconstruct, then answer ephemerally; never touches the rate
limiter.  A fault escaping `get_spoiler_cache` escapes the handler. -/
def reveal_spoiler (w : World) (st : CogState) (channel_id message_id : Nat) :
    CogState × List Effect × Option Fault :=
  let r := get_spoiler_cache w st.cache channel_id message_id
  match r.result with
  | .error f => (⟨r.cache, st.cooldown⟩, [], some f)
  | .ok (some c) => (⟨r.cache, st.cooldown⟩, [.ephemeralEmbed c], none)
  | .ok none => (⟨r.cache, st.cooldown⟩, [.ephemeralNotFound], none)

/-- `Buttons.on_raw_reaction_add`, the reaction handler (source lines
512-528): wrong emoji is ignored; then the rate limiter gates everything
else; a bot reactor is ignored; otherwise reconstruct and DM the record
on a hit, or do nothing on a miss. -/
def on_raw_reaction_add (w : World) (st : CogState) (now : Nat)
    (emoji_id channel_id message_id user_id : Nat) :
    CogState × List Effect × Option Fault :=
  if emoji_id ≠ SPOILER_EMOJI_ID then (st, [], none)
  else
    let rl := is_rate_limited st.cooldown message_id user_id now
    if rl.1 then (⟨st.cache, rl.2⟩, [.rateCheck message_id user_id], none)
    else if w.userIsBot user_id then (⟨st.cache, rl.2⟩, [.rateCheck message_id user_id], none)
    else
      let r := get_spoiler_cache w st.cache channel_id message_id
      match r.result with
      | .error f => (⟨r.cache, rl.2⟩, [.rateCheck message_id user_id], some f)
      | .ok (some c) =>
        (⟨r.cache, rl.2⟩, [.rateCheck message_id user_id, .dmEmbed user_id c], none)
      | .ok none => (⟨r.cache, rl.2⟩, [.rateCheck message_id user_id], none)

/-! ## Theorems about the publish pipeline -/

/-- C5: Size budget.  Publish processes candidate attachments in order
under a cumulative 25 MiB cap; an attachment whose size would exceed the
remaining budget is skipped while later attachments are still evaluated
against the remaining budget, and the loop stops once the total reaches
the cap.  For sizes [10MiB, 10MiB, 10MiB] exactly the first two are
archived; for [30MiB] zero are archived; for [20MiB, 10MiB, 5MiB] the
second is skipped but the third is still archived, after which the total
equals the cap and the loop stops. -/
theorem c5_size_budget :
    (redirect_post ⟨true, true⟩ 7 9 "t" none
        [⟨"a.png", "u1", .resp 200 (10 * 1024 * 1024)⟩,
         ⟨"b.png", "u2", .resp 200 (10 * 1024 * 1024)⟩,
         ⟨"c.png", "u3", .resp 200 (10 * 1024 * 1024)⟩]).result
      = .ok (⟨[encodeArchiveEmbed 7 9 "t" none],
              [⟨"a.png", "u1", 10 * 1024 * 1024⟩, ⟨"b.png", "u2", 10 * 1024 * 1024⟩]⟩,
             ⟨7, 9, some "t", none,
              [⟨"a.png", "u1", 10 * 1024 * 1024⟩, ⟨"b.png", "u2", 10 * 1024 * 1024⟩]⟩)
  ∧ (redirect_post ⟨true, true⟩ 7 9 "t" none
        [⟨"a.png", "u1", .resp 200 (30 * 1024 * 1024)⟩]).result
      = .ok (⟨[encodeArchiveEmbed 7 9 "t" none], []⟩, ⟨7, 9, some "t", none, []⟩)
  ∧ archiveLoop
        [⟨"a.png", "u1", .resp 200 (20 * 1024 * 1024)⟩,
         ⟨"b.png", "u2", .resp 200 (10 * 1024 * 1024)⟩,
         ⟨"c.png", "u3", .resp 200 (5 * 1024 * 1024)⟩] [] 0 0
      = .done [⟨"a.png", "u1", 20 * 1024 * 1024⟩, ⟨"c.png", "u3", 5 * 1024 * 1024⟩]
          (25 * 1024 * 1024) 3 :=
  ⟨rfl, rfl, rfl⟩

/-- C8: Type policy.  With the storage channel available, any candidate
attachment whose (lowercased) filename extension is outside the allowed
set fails the whole publish with the unsupported-attachment error before
any attachment-content fetch, before the origin deletion and before the
archive write. -/
theorem c8_type_policy (w : PubWorld) (author_id channel_id : Nat) (title : String)
    (text : Option String) (atts : List PubAttachment)
    (hstorage : w.storageAvailable = true)
    (hbad : atts.all (fun a => isSupportedFilename a.filename) = false) :
    redirect_post w author_id channel_id title text atts
      = ⟨.error .unsupportedAttachment, false, 0, false⟩ := by
  simp only [redirect_post, hstorage, hbad]
  simp

/-- C8 witness: a candidate named `evil.exe` fails the publish with zero
content fetches. -/
theorem c8_type_policy_witness :
    redirect_post ⟨true, true⟩ 1 2 "t" none [⟨"evil.exe", "u", .resp 200 5⟩]
      = ⟨.error .unsupportedAttachment, false, 0, false⟩ :=
  c8_type_policy ⟨true, true⟩ 1 2 "t" none [⟨"evil.exe", "u", .resp 200 5⟩] rfl (by decide)

/-- C2 counterexample: with a failing archive write (and no attachments),
`redirect_post` fails with the archive-write error, but the origin
message HAS been deleted — the claim's "the origin message is still
present" is false on the code, which deletes the origin before writing
the archive (source line 450 before line 459). -/
theorem c2_counterexample :
    (redirect_post ⟨true, false⟩ 1 2 "t" none []).result = .error .archiveWriteFailed
    ∧ (redirect_post ⟨true, false⟩ 1 2 "t" none []).originDeleted = true :=
  ⟨rfl, rfl⟩

/-- C2 amended: if the archive write fails during publish, the pipeline
fails with the archive-write error, but the original front-door message
has already been deleted, because deletion happens before the archive
write. -/
theorem c2_amended_delete_precedes_archive_write (w : PubWorld) (author_id channel_id : Nat)
    (title : String) (text : Option String) (atts : List PubAttachment)
    (files : List Attachment) (total n : Nat)
    (hstorage : w.storageAvailable = true)
    (hok : atts.all (fun a => isSupportedFilename a.filename) = true)
    (hloop : archiveLoop atts [] 0 0 = .done files total n)
    (hfail : w.archiveOk = false) :
    redirect_post w author_id channel_id title text atts
      = ⟨.error .archiveWriteFailed, true, n, false⟩ := by
  simp only [redirect_post, hstorage, hok, hloop, hfail]
  simp

/-- C2 amended, witness at a concrete failing world. -/
theorem c2_amended_witness :
    redirect_post ⟨true, false⟩ 1 2 "t" none []
      = ⟨.error .archiveWriteFailed, true, 0, false⟩ :=
  c2_amended_delete_precedes_archive_write ⟨true, false⟩ 1 2 "t" none [] [] 0 0
    rfl rfl rfl rfl

/-- C4 counterexample: an attachment whose content fetch FAILS with an
HTTP 500 response does not abort the publish: the attachment is silently
skipped (`continue` on `resp.status != 200`, source lines 432-433) and
the archive message is still written, so the publish succeeds — against
the claim that an attachment fetch failure surfaces as a publish failure
and aborts the pipeline. -/
theorem c4_counterexample :
    (redirect_post ⟨true, true⟩ 1 2 "t" none [⟨"a.png", "u", .resp 500 100⟩]).result
      = .ok (⟨[encodeArchiveEmbed 1 2 "t" none], []⟩, ⟨1, 2, some "t", none, []⟩)
    ∧ (redirect_post ⟨true, true⟩ 1 2 "t" none [⟨"a.png", "u", .resp 500 100⟩]).archiveWritten
      = true :=
  ⟨rfl, rfl⟩

/-- C4 amended: an attachment fetch that raises a transport exception is
surfaced as a generic publish failure and aborts the pipeline — no origin
deletion, no archive write, and no later attachment is processed (the
loop faults immediately at the raising attachment).  A fetch that merely
returns a non-200 status is instead skipped and the pipeline continues
(see the C4 counterexample). -/
theorem c4_amended_fetch_exception_aborts :
    (∀ (w : PubWorld) (author_id channel_id : Nat) (title : String) (text : Option String)
        (atts : List PubAttachment) (n : Nat),
      w.storageAvailable = true →
      atts.all (fun a => isSupportedFilename a.filename) = true →
      archiveLoop atts [] 0 0 = .fault n →
      redirect_post w author_id channel_id title text atts
        = ⟨.error .fetchFault, false, n, false⟩)
  ∧ (∀ (a : PubAttachment) (rest : List PubAttachment) (files : List Attachment)
        (total fetches : Nat),
      a.fetch = .exc →
      archiveLoop (a :: rest) files total fetches = .fault (fetches + 1)) := by
  constructor
  · intro w author_id channel_id title text atts n hstorage hok hloop
    simp only [redirect_post, hstorage, hok, hloop]
    simp
  · intro a rest files total fetches ha
    simp only [archiveLoop, ha]

/-- C4 amended, witness: a single attachment whose fetch raises aborts
the publish with one attempted fetch and nothing written or deleted. -/
theorem c4_amended_witness :
    redirect_post ⟨true, true⟩ 1 2 "t" none [⟨"a.png", "u", .exc⟩]
      = ⟨.error .fetchFault, false, 1, false⟩ :=
  c4_amended_fetch_exception_aborts.1 ⟨true, true⟩ 1 2 "t" none [⟨"a.png", "u", .exc⟩] 1
    rfl (by decide) rfl

/-! ## Theorems about the codec and reconstruction -/

/-- A world in which every fetch succeeds, the front-door message carries
a well-formed footer pointer, but the archive message has no embeds, so
the decode step of `get_spoiler_cache` raises. -/
def badDecodeWorld : World :=
  { storageAvailable := true
    getChannel := fun _ => true
    fetchFront := fun _ _ => some ⟨[{ footer_text := some "5" }], []⟩
    fetchStorage := fun _ => some ⟨[], []⟩
    userIsBot := fun _ => false }

/-- C1 counterexample: reconstruction is NOT total in its failure
handling.  In `badDecodeWorld` both fetches succeed and the footer
parses, but the archive message has no embeds; `message.embeds[0]`
(source line 500) runs outside the `try` block, so the `IndexError`
escapes `get_spoiler_cache` instead of yielding a not-found outcome. -/
theorem c1_counterexample :
    (get_spoiler_cache badDecodeWorld [] 1 2).result = .error .indexError := rfl

/-- C1 amended: reconstruction handles the unknown channel, the
unfetchable front-door message, the unparsable footer pointer and the
missing archive message softly (a definite found/not-found outcome), but
a decode failure of a fetched archive message (missing embed, or an
author-identity/footer slot that does not parse as an integer) escapes as
a fault: an escaped fault can arise only from the decode step. -/
theorem c1_amended_fault_only_from_decode (w : World) (cache : List (Nat × SpoilerCache))
    (channel_id message_id : Nat) (f : Fault)
    (h : (get_spoiler_cache w cache channel_id message_id).result = .error f) :
    ∃ original_message storage_message_id message,
      w.fetchFront channel_id message_id = some original_message ∧
      frontPointer original_message = some storage_message_id ∧
      w.fetchStorage storage_message_id = some message ∧
      decodeStorage message = .error f := by
  unfold get_spoiler_cache at h
  split at h
  · simp at h
  · split at h
    · simp at h
    · split at h
      · simp at h
      · split at h
        · simp at h
        · rename_i original_message hfm
          split at h
          · simp at h
          · rename_i storage_message_id hfp
            split at h
            · simp at h
            · rename_i message hfs
              split at h
              · rename_i f' hdec
                simp only [Except.error.injEq] at h
                exact ⟨original_message, storage_message_id, message, hfm, hfp, hfs,
                  h ▸ hdec⟩
              · simp at h

/-- C1 amended, witness: in `badDecodeWorld` the escaped fault is indeed
produced by the decode of the fetched (embed-less) archive message. -/
theorem c1_amended_witness :
    ∃ original_message storage_message_id message,
      badDecodeWorld.fetchFront 1 2 = some original_message ∧
      frontPointer original_message = some storage_message_id ∧
      badDecodeWorld.fetchStorage storage_message_id = some message ∧
      decodeStorage message = .error .indexError :=
  c1_amended_fault_only_from_decode badDecodeWorld [] 1 2 .indexError rfl

lemma textOfDescription_ne_empty (d : Option String) :
    textOfDescription d ≠ some "" := by
  unfold textOfDescription
  cases d with
  | none => simp
  | some t =>
    by_cases ht : t = "" <;> simp [ht]

lemma textOfDescription_of_ne_empty (d : Option String) (hd : d ≠ some "") :
    textOfDescription d = d := by
  unfold textOfDescription
  cases d with
  | none => rfl
  | some t =>
    have ht : ¬(t = "") := fun hc => hd (by rw [hc])
    simp [ht]

/-- C3: Round-trip.  For every valid spoiler record — `text` is `None`
or a non-empty string, as for every record the publish pipeline can
construct — decoding the archive encoding returns the record unchanged on
every field: author id, origin channel id, title, text (absent stays
absent, present stays present), and the attachment list in order. -/
theorem c3_round_trip (author_id channel_id : Nat) (title : String) (text : Option String)
    (atts : List Attachment) (hvalid : text ≠ some "") :
    decodeStorage ⟨[encodeArchiveEmbed author_id channel_id title text], atts⟩
      = .ok ⟨author_id, channel_id, some title, text, atts⟩ := by
  simp only [decodeStorage, encodeArchiveEmbed, parseNat_toString]
  rw [textOfDescription_of_ne_empty text hvalid,
    textOfDescription_of_ne_empty text hvalid]

/-- C3 witness: a concrete record round-trips. -/
theorem c3_round_trip_witness :
    decodeStorage ⟨[encodeArchiveEmbed 3 4 "cat" (some "body")], [⟨"img.png", "u", 2097152⟩]⟩
      = .ok ⟨3, 4, some "cat", some "body", [⟨"img.png", "u", 2097152⟩]⟩ :=
  c3_round_trip 3 4 "cat" (some "body") [⟨"img.png", "u", 2097152⟩] (by decide)

/-- C10: a record produced by the decode step never carries an
empty-string text: a missing or empty body slot decodes to an absent
text (`None if not data.description else data.description`, source line
506).  Consequently the encoding of a record whose text is the empty
string decodes back to an absent text, not to the empty string. -/
theorem c10_decoded_text_never_empty :
    (∀ (msg : Message) (c : SpoilerCache), decodeStorage msg = .ok c → c.text ≠ some "")
  ∧ (∀ (author_id channel_id : Nat) (title : String) (atts : List Attachment),
      decodeStorage ⟨[encodeArchiveEmbed author_id channel_id title (some "")], atts⟩
        = .ok ⟨author_id, channel_id, some title, none, atts⟩) := by
  constructor
  · intro msg c hdec
    unfold decodeStorage at hdec
    split at hdec
    · simp at hdec
    · split at hdec
      · simp at hdec
      · split at hdec
        · simp at hdec
        · split at hdec
          · simp at hdec
          · split at hdec
            · simp at hdec
            · simp only [Except.ok.injEq] at hdec
              rw [← hdec]
              exact textOfDescription_ne_empty _
  · intro author_id channel_id title atts
    simp only [decodeStorage, encodeArchiveEmbed, parseNat_toString]
    rfl

/-- C10 witness: a concrete decoded record has a non-empty text. -/
theorem c10_witness :
    (⟨1, 2, some "t", some "hi", []⟩ : SpoilerCache).text ≠ some "" :=
  c10_decoded_text_never_empty.1
    ⟨[⟨some "t", some "hi", some "1", some "2"⟩], []⟩
    ⟨1, 2, some "t", some "hi", []⟩ rfl

/-! ## Theorems about the reveal rate limiter -/

lemma rateFind_filter_ne (m : RateMap) (k k' : Nat × Nat) (hne : k' ≠ k) :
    rateFind (m.filter (fun p => p.1 != k)) k' = rateFind m k' := by
  induction m with
  | nil => rfl
  | cons p rest ih =>
    obtain ⟨k0, w0⟩ := p
    rw [List.filter_cons]
    by_cases hp : k0 = k
    · have hb : ((k0, w0).1 != k) = false := by simp [hp]
      rw [hb]
      have h0 : ¬(k0 = k') := by
        rw [hp]
        exact fun hc => hne hc.symm
      simp [rateFind, h0, ih]
    · have hb : ((k0, w0).1 != k) = true := by simp [hp]
      rw [hb]
      by_cases h0 : k0 = k'
      · simp [rateFind, h0]
      · simp [rateFind, h0, ih]

/-- C6: the reveal rate limiter is a token bucket per
`(front-door post id, actor id)` pair with capacity 1 and a 10-second
refill: a fresh pair is allowed and its consumption time recorded; a
further call within 10 seconds is denied; a call 10 or more seconds after
the consumption is allowed again; other pairs' buckets are untouched, so
a distinct actor on the same post is unaffected.  Concretely: first call
true, immediate second call false, call at +10 s true, distinct actor
true.  Gating: the button handler `reveal_spoiler` never consults the
limiter and leaves it unchanged, while a denied reaction-path call stops
after the rate check (no fetch, no delivery). -/
theorem c6_rate_limiter :
    (∀ (m : RateMap) (k : Nat × Nat) (now : Nat),
      rateFind m k = none → (rateAllow m k now).1 = true)
  ∧ (∀ (m : RateMap) (k : Nat × Nat) (now : Nat),
      (rateAllow m k now).1 = true → rateFind (rateAllow m k now).2 k = some now)
  ∧ (∀ (m : RateMap) (k : Nat × Nat) (w now : Nat),
      rateFind m k = some w → now < w + 10 → (rateAllow m k now).1 = false)
  ∧ (∀ (m : RateMap) (k : Nat × Nat) (w now : Nat),
      rateFind m k = some w → w + 10 ≤ now → (rateAllow m k now).1 = true)
  ∧ (∀ (m : RateMap) (k k' : Nat × Nat) (now : Nat),
      k' ≠ k → rateFind (rateAllow m k now).2 k' = rateFind m k')
  ∧ ((rateAllow [] (1, 2) 0).1 = true
      ∧ (rateAllow (rateAllow [] (1, 2) 0).2 (1, 2) 0).1 = false
      ∧ (rateAllow (rateAllow [] (1, 2) 0).2 (1, 2) 10).1 = true
      ∧ (rateAllow (rateAllow [] (1, 2) 0).2 (1, 3) 0).1 = true)
  ∧ (∀ (w : World) (st : CogState) (channel_id message_id : Nat),
      (reveal_spoiler w st channel_id message_id).1.cooldown = st.cooldown
      ∧ ∀ mi ui, Effect.rateCheck mi ui ∉ (reveal_spoiler w st channel_id message_id).2.1)
  ∧ (∀ (w : World) (st : CogState) (now channel_id message_id user_id : Nat),
      (is_rate_limited st.cooldown message_id user_id now).1 = true →
      on_raw_reaction_add w st now SPOILER_EMOJI_ID channel_id message_id user_id
        = (⟨st.cache, (is_rate_limited st.cooldown message_id user_id now).2⟩,
           [.rateCheck message_id user_id], none)) := by
  refine ⟨?_, ?_, ?_, ?_, ?_, ⟨rfl, rfl, rfl, rfl⟩, ?_, ?_⟩
  · intro m k now h
    simp [rateAllow, h]
  · intro m k now h
    simp only [rateAllow] at h ⊢
    cases hf : rateFind m k with
    | none => simp [rateFind]
    | some w =>
      simp only [hf] at h ⊢
      by_cases hle : w + 10 ≤ now
      · simp only [if_pos hle]
        simp [rateFind]
      · simp [if_neg hle] at h
  · intro m k w now hf hlt
    simp only [rateAllow, hf]
    rw [if_neg (by omega : ¬(w + 10 ≤ now))]
  · intro m k w now hf hle
    simp only [rateAllow, hf]
    rw [if_pos hle]
  · intro m k k' now hne
    simp only [rateAllow]
    cases hf : rateFind m k with
    | none =>
      simp only [rateFind]
      rw [if_neg (fun hc => hne hc.symm)]
    | some w =>
      by_cases hle : w + 10 ≤ now
      · simp only [if_pos hle]
        simp only [rateFind]
        rw [if_neg (fun hc => hne hc.symm)]
        exact rateFind_filter_ne m k k' hne
      · simp only [if_neg hle]
  · intro w st channel_id message_id
    constructor
    · simp only [reveal_spoiler]
      split <;> rfl
    · intro mi ui
      simp only [reveal_spoiler]
      split <;> simp
  · intro w st now channel_id message_id user_id h
    simp only [on_raw_reaction_add]
    rw [if_neg (by simp : ¬(SPOILER_EMOJI_ID ≠ SPOILER_EMOJI_ID))]
    rw [if_pos h]

/-- C6 witness: a fresh (post, actor) pair is allowed. -/
theorem c6_witness : (rateAllow [] (5, 6) 3).1 = true :=
  c6_rate_limiter.1 [] (5, 6) 3 rfl

/-! ## Theorems about the lookup cache -/

lemma lruRemove_length_le {α : Type} : ∀ (c : List (Nat × α)) (k : Nat),
    (lruRemove c k).length ≤ c.length := by
  intro c k
  induction c with
  | nil => simp [lruRemove]
  | cons p rest ih =>
    obtain ⟨k0, v0⟩ := p
    rw [lruRemove]
    by_cases hk : k0 = k
    · rw [if_pos hk]
      simp only [List.length_cons]
      omega
    · rw [if_neg hk]
      simp only [List.length_cons]
      omega

lemma lruFind_remove_lt {α : Type} : ∀ (c : List (Nat × α)) (k : Nat) (v : α),
    lruFind c k = some v → (lruRemove c k).length < c.length := by
  intro c k v
  induction c with
  | nil => intro h; simp [lruFind] at h
  | cons p rest ih =>
    intro h
    obtain ⟨k0, v0⟩ := p
    rw [lruRemove]
    rw [lruFind] at h
    by_cases hk : k0 = k
    · rw [if_pos hk]
      have := lruRemove_length_le (α := α) rest k
      simp only [List.length_cons]
      omega
    · rw [if_neg hk]
      rw [if_neg hk] at h
      have := ih h
      simp only [List.length_cons]
      omega

lemma lruRemove_of_fresh {α : Type} : ∀ (c : List (Nat × α)) (k : Nat),
    k ∉ c.map Prod.fst → lruRemove c k = c := by
  intro c k
  induction c with
  | nil => intro _; rfl
  | cons p rest ih =>
    intro h
    obtain ⟨k0, v0⟩ := p
    rw [lruRemove]
    have hk : ¬(k0 = k) := by
      intro hc
      exact h (by simp [hc.symm])
    rw [if_neg hk]
    rw [ih (fun hc => h (by simp; right; simpa using hc))]

lemma lruGet_hit {α : Type} (c : List (Nat × α)) (k : Nat) (v : α)
    (hfind : lruFind c k = some v) :
    lruGet c k = (some v, (k, v) :: lruRemove c k) := by
  simp [lruGet, hfind]

lemma lruFind_cons_self {α : Type} (k : Nat) (v : α) (rest : List (Nat × α)) :
    lruFind ((k, v) :: rest) k = some v := by
  simp [lruFind]

/-- C9: the lookup cache is LRU-bounded at the source's capacity 128:
`put` never leaves more than 128 entries and lookups keep the cache
within capacity; inserting a fresh key into a full cache of 128 entries
evicts exactly the least-recently-used (last) entry and no other — the
result is the new entry followed by every old entry except the last; and
a successful `get` refreshes the accessed key's recency, so that entry
survives the next insertion instead of being the eviction victim. -/
theorem c9_lru_bound_eviction_refresh :
    (∀ (c : List (Nat × SpoilerCache)) (k : Nat) (v : SpoilerCache),
      (lruPut 128 c k v).length ≤ 128)
  ∧ (∀ (w : World) (c : List (Nat × SpoilerCache)) (channel_id message_id : Nat),
      c.length ≤ 128 → ((get_spoiler_cache w c channel_id message_id).cache).length ≤ 128)
  ∧ (∀ (c : List (Nat × SpoilerCache)) (k : Nat) (v : SpoilerCache),
      c.length = 128 → k ∉ c.map Prod.fst →
      lruPut 128 c k v = (k, v) :: c.dropLast)
  ∧ (∀ (c : List (Nat × SpoilerCache)) (k : Nat) (v : SpoilerCache) (k₂ : Nat)
        (v₂ : SpoilerCache),
      lruFind c k = some v → k₂ ≠ k →
      (k, v) ∈ lruPut 128 (lruGet c k).2 k₂ v₂) := by
  refine ⟨?_, ?_, ?_, ?_⟩
  · intro c k v
    rw [lruPut]
    simp only [List.length_take]
    omega
  · intro w c channel_id message_id hlen
    unfold get_spoiler_cache
    cases hfind : lruFind c message_id with
    | some v =>
      simp only [lruGet_hit c message_id v hfind]
      have := lruFind_remove_lt c message_id v hfind
      simp only [List.length_cons]
      omega
    | none =>
      have hget : lruGet c message_id = (none, c) := by simp [lruGet, hfind]
      simp only [hget]
      split
      · exact hlen
      · split
        · exact hlen
        · split
          · exact hlen
          · split
            · exact hlen
            · split
              · exact hlen
              · split
                · exact hlen
                · rw [lruPut]
                  simp only [List.length_take]
                  omega
  · intro c k v hlen hfresh
    rw [lruPut, lruRemove_of_fresh c k hfresh]
    show (k, v) :: c.take 127 = (k, v) :: c.dropLast
    rw [List.dropLast_eq_take, hlen]
  · intro c k v k₂ v₂ hfind hne
    simp only [lruGet_hit c k v hfind]
    rw [lruPut, lruRemove]
    rw [if_neg (fun hc => hne hc.symm)]
    show (k, v) ∈ (k₂, v₂) :: (k, v) :: (lruRemove (lruRemove c k) k₂).take 126
    exact List.mem_cons_of_mem _ (List.mem_cons_self _ _)

/-- An arbitrary record, for concrete instantiations. -/
def dummyRecord : SpoilerCache := ⟨0, 0, none, none, []⟩

/-- A full cache of 128 distinct entries, keys 0..127, key 0 least recent. -/
def fullCache : List (Nat × SpoilerCache) := (List.range 128).map (fun i => (i, dummyRecord))

/-- C9 witness: the 129th distinct insertion into the full cache evicts
exactly the least-recently-used entry. -/
theorem c9_witness :
    lruPut 128 fullCache 200 dummyRecord = (200, dummyRecord) :: fullCache.dropLast :=
  c9_lru_bound_eviction_refresh.2.2.1 fullCache 200 dummyRecord
    (by simp [fullCache])
    (by simp [fullCache, List.mem_map, List.mem_range])

/-! ## Theorems about reconstruction cost -/

lemma get_spoiler_cache_hit (w : World) (cache : List (Nat × SpoilerCache))
    (channel_id message_id : Nat) (v : SpoilerCache)
    (hfind : lruFind cache message_id = some v) :
    get_spoiler_cache w cache channel_id message_id
      = ⟨.ok (some v), (message_id, v) :: lruRemove cache message_id, 0, 0, 0⟩ := by
  unfold get_spoiler_cache
  simp only [lruGet_hit cache message_id v hfind]

/-- C7: reconstruction cost and purity.  Every `get_spoiler_cache` call
makes at most two remote fetches, zero durable-store writes and at most
one cache insertion; a cache hit returns immediately with zero fetches
(refreshing the entry's recency only); and after any call that returns a
record, a second call for the same front-door id returns the identical
record with zero fetches. -/
theorem c7_reconstruction_cost :
    (∀ (w : World) (cache : List (Nat × SpoilerCache)) (channel_id message_id : Nat),
      (get_spoiler_cache w cache channel_id message_id).fetches ≤ 2
      ∧ (get_spoiler_cache w cache channel_id message_id).storeWrites = 0
      ∧ (get_spoiler_cache w cache channel_id message_id).cacheWrites ≤ 1)
  ∧ (∀ (w : World) (cache : List (Nat × SpoilerCache)) (channel_id message_id : Nat)
        (v : SpoilerCache),
      lruFind cache message_id = some v →
      get_spoiler_cache w cache channel_id message_id
        = ⟨.ok (some v), (message_id, v) :: lruRemove cache message_id, 0, 0, 0⟩)
  ∧ (∀ (w : World) (cache : List (Nat × SpoilerCache)) (channel_id message_id : Nat)
        (r : SpoilerCache),
      (get_spoiler_cache w cache channel_id message_id).result = .ok (some r) →
      (get_spoiler_cache w (get_spoiler_cache w cache channel_id message_id).cache
          channel_id message_id).result = .ok (some r)
      ∧ (get_spoiler_cache w (get_spoiler_cache w cache channel_id message_id).cache
          channel_id message_id).fetches = 0) := by
  refine ⟨?_, ?_, ?_⟩
  · intro w cache channel_id message_id
    unfold get_spoiler_cache
    cases hfind : lruFind cache message_id with
    | some v =>
      simp only [lruGet_hit cache message_id v hfind]
      refine ⟨by norm_num, by norm_num, by norm_num⟩
    | none =>
      have hget : lruGet cache message_id = (none, cache) := by simp [lruGet, hfind]
      simp only [hget]
      split
      · refine ⟨by norm_num, by norm_num, by norm_num⟩
      · split
        · refine ⟨by norm_num, by norm_num, by norm_num⟩
        · split
          · refine ⟨by norm_num, by norm_num, by norm_num⟩
          · split
            · refine ⟨by norm_num, by norm_num, by norm_num⟩
            · split
              · refine ⟨by norm_num, by norm_num, by norm_num⟩
              · split
                · refine ⟨by norm_num, by norm_num, by norm_num⟩
                · refine ⟨by norm_num, by norm_num, by norm_num⟩
  · intro w cache channel_id message_id v hfind
    exact get_spoiler_cache_hit w cache channel_id message_id v hfind
  · intro w cache channel_id message_id r h
    cases hfind : lruFind cache message_id with
    | some v =>
      have h1 := get_spoiler_cache_hit w cache channel_id message_id v hfind
      rw [h1] at h
      simp only [Except.ok.injEq, Option.some.injEq] at h
      subst h
      rw [h1]
      show (get_spoiler_cache w ((message_id, v) :: lruRemove cache message_id)
            channel_id message_id).result = .ok (some v)
        ∧ (get_spoiler_cache w ((message_id, v) :: lruRemove cache message_id)
            channel_id message_id).fetches = 0
      rw [get_spoiler_cache_hit w ((message_id, v) :: lruRemove cache message_id)
        channel_id message_id v (lruFind_cons_self message_id v (lruRemove cache message_id))]
      exact ⟨rfl, rfl⟩
    | none =>
      have hget : lruGet cache message_id = (none, cache) := by simp [lruGet, hfind]
      have hfull : ∃ c, get_spoiler_cache w cache channel_id message_id
          = ⟨.ok (some c), lruPut 128 cache message_id c, 2, 0, 1⟩ ∧ r = c := by
        unfold get_spoiler_cache at h ⊢
        simp only [hget] at h ⊢
        by_cases hs : w.storageAvailable = false
        · rw [if_pos hs] at h
          simp at h
        · rw [if_neg hs] at h ⊢
          by_cases hch : w.getChannel channel_id = false
          · rw [if_pos hch] at h
            simp at h
          · rw [if_neg hch] at h ⊢
            cases hfm : w.fetchFront channel_id message_id with
            | none =>
              simp only [hfm] at h
              simp at h
            | some fm =>
              simp only [hfm] at h ⊢
              cases hfp : frontPointer fm with
              | none =>
                simp only [hfp] at h
                simp at h
              | some sid =>
                simp only [hfp] at h ⊢
                cases hfs : w.fetchStorage sid with
                | none =>
                  simp only [hfs] at h
                  simp at h
                | some msg =>
                  simp only [hfs] at h ⊢
                  cases hdec : decodeStorage msg with
                  | error f =>
                    simp only [hdec] at h
                    simp at h
                  | ok c =>
                    simp only [hdec] at h ⊢
                    simp only [Except.ok.injEq, Option.some.injEq] at h
                    exact ⟨c, rfl, h.symm⟩
      obtain ⟨c, hfull2, hrc⟩ := hfull
      subst hrc
      rw [hfull2]
      show (get_spoiler_cache w (lruPut 128 cache message_id r) channel_id message_id).result
          = .ok (some r)
        ∧ (get_spoiler_cache w (lruPut 128 cache message_id r)
            channel_id message_id).fetches = 0
      rw [get_spoiler_cache_hit w (lruPut 128 cache message_id r) channel_id message_id r
        (lruFind_cons_self message_id r ((lruRemove cache message_id).take 127))]
      exact ⟨rfl, rfl⟩

/-- A world in which nothing is reachable; enough for a cache hit. -/
def anyWorld : World :=
  { storageAvailable := true
    getChannel := fun _ => true
    fetchFront := fun _ _ => none
    fetchStorage := fun _ => none
    userIsBot := fun _ => false }

/-- C7 witness: a cache hit is answered from the cache with zero fetches,
zero store writes and zero insertions. -/
theorem c7_witness :
    get_spoiler_cache anyWorld [(2, dummyRecord)] 1 2
      = ⟨.ok (some dummyRecord), [(2, dummyRecord)], 0, 0, 0⟩ :=
  c7_reconstruction_cost.2.1 anyWorld [(2, dummyRecord)] 1 2 dummyRecord rfl
